import Mathlib

/-!
Verification development for the go-kicad S-expression codec.

Strings and byte streams are modelled as `List Nat` of byte values, since the
Go code operates on bytes throughout.  Frequently used ASCII values:
  0 NUL, 8 BS, 9 TAB, 10 LF, 11 VT, 13 CR, 32 SPACE, 34 quote, 35 hash,
  40 lparen, 41 rparen, 43 plus, 45 minus, 46 dot, 48..57 digits 0..9,
  65..90 A..Z, 88 X, 92 backslash, 95 underscore, 97..122 a..z,
  110 n, 114 r, 116 t, 118 v, 120 x.
-/

namespace GoKicad

/-- Token kinds, from the TokenType constants in sexp/scanner.go.  EOF is
represented in the decode-engine model by an exhausted token list, so an
EOF-typed token never occurs inside a well-formed stream. -/
inductive TokenType where
  | RAW_STRING
  | QUOTE_STRING
  | NUMBER
  | RIGHT
  | LEFT
  | EOF
  | INVALID
deriving DecidableEq, Repr

/-- Token, from sexp/scanner.go: a kind plus the raw byte data. -/
structure Token where
  type : TokenType
  data : List Nat
deriving DecidableEq, Repr

/-! ## Byte-level scanner (src/sexp/scanner.go)

The scanner in scanner.go classifies bytes 10, 13, 32, 8, 0 as whitespace
(note: byte 8 is BACKSPACE, not TAB).  The `lines` diagnostic counter is not
modelled; it only affects error message text. -/

/-- Whitespace byte set used by scanIrrelevant/scanWhitespace/scanRaw in
scanner.go: LF, CR, SPACE, BACKSPACE, NUL. -/
def isScanWhitespace (b : Nat) : Bool :=
  b = 10 || b = 13 || b = 32 || b = 8 || b = 0

/-- scanWhitespace from scanner.go: length of the maximal leading run of
whitespace bytes. -/
def scanWhitespace : List Nat → Nat
  | [] => 0
  | b :: rest => if isScanWhitespace b then 1 + scanWhitespace rest else 0

/-- Helper for scanComment: bytes consumed up to and including a line
terminator (LF or CR). -/
def scanCommentBody : List Nat → Nat
  | [] => 0
  | b :: rest => if b = 10 || b = 13 then 1 else 1 + scanCommentBody rest

/-- scanComment from scanner.go: one byte for the hash, then the body through
end of line. -/
def scanComment (data : List Nat) : Nat :=
  1 + scanCommentBody (data.drop 1)

/-- Helper for scanString: bytes consumed after the opening quote, tracking
the escape flag; none if the input ends before an unescaped closing quote
(the unterminated-string lex error at end of stream). -/
def scanStringBody (escape : Bool) : List Nat → Option Nat
  | [] => none
  | b :: rest =>
    if escape then (scanStringBody false rest).map (· + 1)
    else if b = 92 then (scanStringBody true rest).map (· + 1)
    else if b = 34 then some 1
    else (scanStringBody false rest).map (· + 1)

/-- scanString from scanner.go (with eof true, i.e. the whole input is
available): total advance including both quote delimiters, or none for the
unterminated-string error. -/
def scanString (data : List Nat) : Option Nat :=
  (scanStringBody false (data.drop 1)).map (· + 1)

/-- scanRaw from scanner.go: length of the maximal leading run of bytes
outside the break set whitespace/lparen/rparen/hash. -/
def scanRaw : List Nat → Nat
  | [] => 0
  | b :: rest =>
    if isScanWhitespace b || b = 40 || b = 41 || b = 35 then 0
    else 1 + scanRaw rest

/-- The full token stream of a byte input, combining findToken,
scanIrrelevant and the retry loop in Peek from scanner.go.  A lexing error
yields a final INVALID token (with empty data, as Peek extracts data only
from a scanError, which findToken never produces) and scanning stops; end of
input ends the list (the sticky EOF token is modelled by list exhaustion).
The fuel argument is bounded by the input length since every step consumes at
least one byte. -/
def tokenizeGo (fuel : Nat) (data : List Nat) : List Token :=
  match fuel with
  | 0 => []
  | f + 1 =>
    match data with
    | [] => []
    | b :: _ =>
      if isScanWhitespace b then tokenizeGo f (data.drop (scanWhitespace data))
      else if b = 35 then tokenizeGo f (data.drop (scanComment data))
      else if b = 40 then ⟨.LEFT, [40]⟩ :: tokenizeGo f (data.drop 1)
      else if b = 41 then ⟨.RIGHT, [41]⟩ :: tokenizeGo f (data.drop 1)
      else if b = 34 then
        match scanString data with
        | none => [⟨.INVALID, []⟩]
        | some adv => ⟨.QUOTE_STRING, data.take adv⟩ :: tokenizeGo f (data.drop adv)
      else ⟨.RAW_STRING, data.take (scanRaw data)⟩ :: tokenizeGo f (data.drop (scanRaw data))

/-- Token stream of a complete byte input. -/
def tokenize (data : List Nat) : List Token :=
  tokenizeGo (data.length + 1) data

/-! ## Literal grammar (pcb.go, decode.go helpers and Go strconv models) -/

/-- isHexDigit from pcb.go: decimal digits and LOWERCASE a..f only. -/
def isHexDigit (b : Nat) : Bool :=
  (48 ≤ b && b ≤ 57) || (97 ≤ b && b ≤ 102)

/-- isOctalDigit from pcb.go. -/
def isOctalDigit (b : Nat) : Bool :=
  48 ≤ b && b ≤ 55

/-- Numeric value of a hex digit byte accepted by isHexDigit. -/
def hexVal (b : Nat) : Nat :=
  if b ≤ 57 then b - 48 else b - 87

/-- Digit value as computed by Go strconv (digits, then lowercase letters,
then uppercase letters); 99 marks an invalid digit byte so that the
validity test digitVal b < base rejects it for every base up to 36. -/
def digitVal (b : Nat) : Nat :=
  if 48 ≤ b && b ≤ 57 then b - 48
  else if 97 ≤ b && b ≤ 122 then b - 87
  else if 65 ≤ b && b ≤ 90 then b - 55
  else 99

/-- Model of Go strconv.ParseUint(s, base, 64) for an explicit base (10 or
16 in this codebase): no sign, no base prefix, no underscores, at least one
digit, every digit valid for the base, and the value within 64 bits
(out-of-range input is an error). -/
def goParseUint (base : Nat) (s : List Nat) : Option Nat :=
  if s = [] then none
  else if s.all (fun b => digitVal b < base) then
    let v := s.foldl (fun acc b => acc * base + digitVal b) 0
    if v < 2 ^ 64 then some v else none
  else none

/-- Model of Go strconv.ParseInt(s, 10, 64): an optional single sign
followed by a nonempty run of decimal digits, with the value within the
signed 64-bit range (out-of-range input is an error). -/
def goParseInt (s : List Nat) : Option Int :=
  match s with
  | 43 :: rest =>
    (goParseUint 10 rest).bind fun v =>
      if v ≤ 2 ^ 63 - 1 then some (v : Int) else none
  | 45 :: rest =>
    (goParseUint 10 rest).bind fun v =>
      if v ≤ 2 ^ 63 then some (-(v : Int)) else none
  | _ =>
    (goParseUint 10 s).bind fun v =>
      if v ≤ 2 ^ 63 - 1 then some (v : Int) else none

/-- Model of Go strconv.ParseBool: exactly the twelve accepted literals. -/
def goParseBool (s : List Nat) : Option Bool :=
  if s = [49] then some true                       -- 1
  else if s = [116] then some true                 -- t
  else if s = [84] then some true                  -- T
  else if s = [84, 82, 85, 69] then some true      -- TRUE
  else if s = [116, 114, 117, 101] then some true  -- true
  else if s = [84, 114, 117, 101] then some true   -- True
  else if s = [48] then some false                 -- 0
  else if s = [102] then some false                -- f
  else if s = [70] then some false                 -- F
  else if s = [70, 65, 76, 83, 69] then some false -- FALSE
  else if s = [102, 97, 108, 115, 101] then some false -- false
  else if s = [70, 97, 108, 115, 101] then some false  -- False
  else none

/-- Exact (unrounded) reading of a floating-point literal: sign, decimal
mantissa digits and a power-of-ten exponent, or one of the non-finite
specials.  IEEE-754 rounding and the overflow range error of Go ParseFloat
are not modelled; no claim depends on float values, only on whether a parse
is accepted. -/
inductive GoFloat where
  | finite (neg : Bool) (mant : Nat) (exp10 : Int)
  | inf (neg : Bool)
  | nan
deriving DecidableEq, Repr

/-- Lowercase a byte (Go strconv lower). -/
def lowerByte (b : Nat) : Nat :=
  if 65 ≤ b && b ≤ 90 then b + 32 else b

/-- Leading decimal digits of a byte list, with their count and value. -/
def takeDigits : List Nat → Nat × Nat × List Nat
  | [] => (0, 0, [])
  | b :: rest =>
    if 48 ≤ b && b ≤ 57 then
      let (n, v, r) := takeDigits rest
      (n + 1, (b - 48) * 10 ^ n + v, r)
    else (0, 0, b :: rest)

/-- Model of Go strconv.ParseFloat(s, 64), restricted to the decimal and
special forms: optional sign; inf, infinity or nan (case-insensitive); or
digits with an optional fractional part (at least one digit overall) and an
optional decimal exponent.  Go additionally accepts hexadecimal float
literals and digit-separating underscores, and reports a range error on
overflow; those cases are not modelled (rejection here where Go accepts is
harmless for the claims, which never depend on a float value). -/
def goParseFloat (s : List Nat) : Option GoFloat :=
  let (neg, r1) :=
    match s with
    | 43 :: r => (false, r)
    | 45 :: r => (true, r)
    | _ => (false, s)
  let low := r1.map lowerByte
  if low = [105, 110, 102] then some (.inf neg)                      -- inf
  else if low = [105, 110, 102, 105, 110, 105, 116, 121] then some (.inf neg) -- infinity
  else if low = [110, 97, 110] then some .nan                        -- nan
  else
    let (n1, v1, r2) := takeDigits r1
    let (n2, v2, r3) :=
      match r2 with
      | 46 :: rest => takeDigits rest
      | _ => (0, 0, r2)
    if n1 + n2 = 0 then none
    else
      let mant := v1 * 10 ^ n2 + v2
      match r3 with
      | [] => some (.finite neg mant (-(n2 : Int)))
      | e :: r4 =>
        if e = 101 || e = 69 then
          let (eneg, r5) :=
            match r4 with
            | 43 :: r => (false, r)
            | 45 :: r => (true, r)
            | _ => (false, r4)
          let (ne, ve, r6) := takeDigits r5
          if ne = 0 || r6 ≠ [] then none
          else
            let ex : Int := (if eneg then -(ve : Int) else (ve : Int)) - (n2 : Int)
            some (.finite neg mant ex)
        else none

/-! ## unquoteString (pcb.go)

The loop over the quoted content.  A `none` result models a Go runtime panic
from an out-of-range index or slice bound: the code reads raw[1] whenever the
current byte is a backslash, relying on a scanner guarantee that its own
invalid-escape branch defeats. -/

/-- The body of unquoteString from pcb.go, translated case by case.  Input is
the content between the quote delimiters; output is the decoded bytes, or
none for the index-out-of-range panic on a trailing lone backslash.  The Go
loop strictly consumes at least one byte per iteration, so a fuel of the
input length is exact; the fuel-exhausted clause is unreachable when called
through unquoteString. -/
def unquoteGo : Nat → List Nat → Option (List Nat)
  | _, [] => some []
  | 0, _ :: _ => none
  | f + 1, 92 :: rest =>
    match rest with
    | [] => none  -- raw[1] with len(raw) = 1: index out of range
    | c :: rest2 =>
      if c = 97 then (unquoteGo f rest2).map (7 :: ·)        -- a: BEL
      else if c = 98 then (unquoteGo f rest2).map (8 :: ·)   -- b: BS
      else if c = 102 then (unquoteGo f rest2).map (12 :: ·) -- f: FF
      else if c = 110 then (unquoteGo f rest2).map (10 :: ·) -- n: LF
      else if c = 114 then (unquoteGo f rest2).map (13 :: ·) -- r: CR
      else if c = 116 then (unquoteGo f rest2).map (9 :: ·)  -- t: TAB
      else if c = 118 then (unquoteGo f rest2).map (11 :: ·) -- v: VT
      else if c = 120 then                                   -- x: hex escape
        match rest2 with
        | [] => (unquoteGo f (c :: rest2)).map (92 :: ·)     -- len(raw) < 3
        | d1 :: rest3 =>
          if isHexDigit d1 then
            match rest3 with
            | d2 :: rest4 =>
              if isHexDigit d2 then
                (unquoteGo f rest4).map ((hexVal d1 * 16 + hexVal d2) % 256 :: ·)
              else (unquoteGo f rest3).map (hexVal d1 % 256 :: ·)
            | [] => (unquoteGo f rest3).map (hexVal d1 % 256 :: ·)
          else (unquoteGo f (c :: rest2)).map (92 :: ·)      -- invalid: keep backslash
      else if isOctalDigit c then                            -- octal escape
        -- the len(raw) < 2 guard in the source is unreachable here: raw[1]
        -- was already read to select this case
        match rest2 with
        | [] => (unquoteGo f rest2).map ((c - 48) % 256 :: ·)
        | r0 :: rest3 =>
          if isOctalDigit r0 then
            match rest3 with
            | r1 :: rest4 =>
              if isOctalDigit r1 then
                (unquoteGo f rest4).map
                  (((c - 48) * 64 + (r0 - 48) * 8 + (r1 - 48)) % 256 :: ·)
              else (unquoteGo f rest3).map (((c - 48) * 8 + (r0 - 48)) % 256 :: ·)
            | [] => (unquoteGo f rest3).map (((c - 48) * 8 + (r0 - 48)) % 256 :: ·)
          else (unquoteGo f rest2).map ((c - 48) % 256 :: ·)
      else (unquoteGo f (c :: rest2)).map (92 :: ·)
        -- invalid escape: emit the backslash and reprocess from c
  | f + 1, b :: rest => (unquoteGo f rest).map (b :: ·)

/-- unquoteString from pcb.go: strip the two quote delimiters, then decode
escapes.  A none result is a Go panic: the delimiter stripping raw[1:len-1]
panics when len(raw) < 2, and the loop panics on a trailing lone
backslash. -/
def unquoteString (raw : List Nat) : Option (List Nat) :=
  if raw.length < 2 then none
  else unquoteGo ((raw.drop 1).dropLast).length ((raw.drop 1).dropLast)

/-! ## Writer (writer.go, in src/unnamed/part_001)

The underlying byte sink is modelled as the accumulated `out` list and never
signals a write error, matching an in-memory buffer.  Each operation returns
the updated writer or the error the Go method returns; the claims never
examine the writer state of a failed call. -/

/-- The pending-delimiter mode of the writer. -/
inductive delimType where
  | delimNone
  | delimSpace
  | delimIndent
deriving DecidableEq, Repr

/-- Errors returned by writer operations. -/
inductive WErr where
  | secondTopLevel  -- cant begin a second top-level value
  | unbalanced      -- unbalanced tuple delimiters
  | noValue         -- no value written
deriving DecidableEq, Repr

/-- Writer state from writer.go plus the bytes written so far. -/
structure Writer where
  parens : Int
  indent : Int
  nextDelim : delimType
  writtenOneValue : Bool
  out : List Nat
deriving DecidableEq, Repr

/-- NewWriter: the zero-valued writer state. -/
def NewWriter : Writer :=
  ⟨0, 0, .delimNone, false, []⟩

/-- delimiter from writer.go: emit the pending delimiter (nothing, one
space, or two spaces per indent level) and clear the pending mode. -/
def delimiter (w : Writer) : Writer :=
  match w.nextDelim with
  | .delimNone => w
  | .delimSpace => { w with out := w.out ++ [32], nextDelim := .delimNone }
  | .delimIndent =>
    { w with out := w.out ++ List.replicate (2 * w.indent.toNat) 32,
             nextDelim := .delimNone }

/-- newline from writer.go: start a fresh indented line unless one is
already pending. -/
def newline (w : Writer) : Writer :=
  if w.nextDelim = .delimIndent then w
  else { w with out := w.out ++ [10], nextDelim := .delimIndent }

/-- recordWrittenOneValue from writer.go. -/
def recordWrittenOneValue (w : Writer) : Writer :=
  if w.parens = 0 then { w with writtenOneValue := true } else w

/-- BeginTuple from writer.go: inside a tuple the new tuple starts on its
own indented line; at top level a second value is rejected; then the pending
delimiter, the open paren, and the depth bump. -/
def BeginTuple (w : Writer) : Except WErr Writer :=
  if w.indent > 0 then
    let w1 := delimiter (newline w)
    .ok { w1 with out := w1.out ++ [40], indent := w1.indent + 1,
                  parens := w1.parens + 1, nextDelim := .delimNone }
  else if w.writtenOneValue then .error .secondTopLevel
  else
    let w1 := delimiter w
    .ok { w1 with out := w1.out ++ [40], indent := w1.indent + 1,
                  parens := w1.parens + 1, nextDelim := .delimNone }

/-- EndTuple from writer.go: emit any pending delimiter other than a space,
the close paren, drop one depth level, fail if the depth went negative, and
mark a completed top-level value. -/
def EndTuple (w : Writer) : Except WErr Writer :=
  let w1 := if w.nextDelim ≠ .delimSpace then delimiter w else w
  let w2 := { w1 with out := w1.out ++ [41], nextDelim := .delimSpace,
                      indent := w1.indent - 1, parens := w1.parens - 1 }
  if w2.parens < 0 then .error .unbalanced
  else .ok (recordWrittenOneValue w2)

/-- WriteRawString from writer.go: the pending delimiter then the bytes
verbatim. -/
def WriteRawString (str : List Nat) (w : Writer) : Except WErr Writer :=
  if w.writtenOneValue then .error .secondTopLevel
  else
    let w1 := delimiter w
    .ok (recordWrittenOneValue
      { w1 with out := w1.out ++ str, nextDelim := .delimSpace })

/-- The per-byte escaping of WriteQuoteString: LF, CR, TAB, VT, quote and
backslash become two-byte escapes; every other byte passes through. -/
def quoteEscapeByte (b : Nat) : List Nat :=
  if b = 10 then [92, 110]
  else if b = 13 then [92, 114]
  else if b = 9 then [92, 116]
  else if b = 11 then [92, 118]
  else if b = 34 then [92, 34]
  else if b = 92 then [92, 92]
  else [b]

/-- WriteQuoteString from writer.go: the pending delimiter, an opening
quote, each byte escaped as needed, and a closing quote. -/
def WriteQuoteString (str : List Nat) (w : Writer) : Except WErr Writer :=
  if w.writtenOneValue then .error .secondTopLevel
  else
    let w1 := delimiter w
    .ok (recordWrittenOneValue
      { w1 with out := w1.out ++ [34] ++ (str.map quoteEscapeByte).flatten ++ [34],
                nextDelim := .delimSpace })

/-- WriteString from writer.go: quoted if any byte is in the raw-string
break set (the same set the scanner uses, byte 8 included), raw otherwise. -/
def WriteString (str : List Nat) (w : Writer) : Except WErr Writer :=
  if str.any (fun b => isScanWhitespace b || b = 40 || b = 41 || b = 35) then
    WriteQuoteString str w
  else WriteRawString str w

/-- WriteToken from writer.go.  Both parenthesis token kinds are sent to
BeginTuple; everything else is written as a raw string. -/
def WriteToken (t : Token) (w : Writer) : Except WErr Writer :=
  match t.type with
  | .LEFT => BeginTuple w
  | .RIGHT => BeginTuple w
  | _ => WriteRawString t.data w

/-- Close from writer.go: fails when tuples remain open or nothing was
written; the optional sink close is a no-op for the in-memory sink. -/
def Close (w : Writer) : Except WErr Unit :=
  if w.parens > 0 then .error .unbalanced
  else if !w.writtenOneValue then .error .noValue
  else .ok ()

/-- Replay a token list through WriteToken, stopping at the first error. -/
def replayTokens : List Token → Writer → Except WErr Writer
  | [], w => .ok w
  | t :: rest, w =>
    match WriteToken t w with
    | .ok w1 => replayTokens rest w1
    | .error e => .error e

/-- The exact writer call sequence of claim C8, ending with Close; returns
the bytes emitted when every call succeeds. -/
def writerSequenceC8 : Except WErr (List Nat) := do
  let w0 := NewWriter
  let w1 ← BeginTuple w0
  let w2 ← WriteRawString [97] w1
  let w3 ← BeginTuple w2
  let w4 ← WriteRawString [98] w3
  let w5 ← EndTuple w4
  let w6 ← EndTuple w5
  let _ ← Close w6
  pure w6.out

/-- Quoted round trip of claim C1: emit a string with WriteQuoteString from
a fresh writer, then decode the emitted token text with unquoteString. -/
def quoteRoundTrip (s : List Nat) : Option (List Nat) :=
  match WriteQuoteString s NewWriter with
  | .ok w => unquoteString w.out
  | .error _ => none

/-! ## Decode engine (decode.go, embedded in pcb.go)

The reflection-driven engine is embedded over a closed universe `Ty` of
decode targets, following the descriptor-table reading of the design: a
struct type carries, for each field that bears a kicad tag, the parsed tag
key (empty for positional fields), the flat and multi flags, and the field
type.  Untagged Go struct fields are invisible to the engine and are not
modelled.  The associative (map) decoder is not required by any claim and is
omitted from the universe.

The scanner is modelled by its observable token stream: a `List Token` of
the not-yet-consumed tokens.  `peekTok` on the empty list is the sticky EOF
token; `readTok` consumes one token.  Every decode function returns its
result together with the scanner state it leaves behind, which on an error
is the state at the point of failure (Go returns the error with the scanner
simply left where it was). -/

/-- Peek: the next unconsumed token, or the synthetic EOF token. -/
def peekTok : List Token → Token
  | [] => ⟨.EOF, []⟩
  | t :: _ => t

/-- Read: consume and return the next token; EOF is sticky. -/
def readTok : List Token → Token × List Token
  | [] => (⟨.EOF, []⟩, [])
  | t :: rest => (t, rest)

/-- Decode-target universe: the reflect kinds the engine dispatches on.
A struct field entry is (tag key, flat flag, multi flag, field type). -/
inductive Ty where
  | str
  | int
  | uint
  | bool
  | float
  | slice (elem : Ty)
  | struct (fields : List (List Nat × Bool × Bool × Ty))
deriving Repr

/-- A struct field descriptor: tag key, flat flag, multi flag, type. -/
abbrev FieldSpec := List Nat × Bool × Bool × Ty

/-- Decoded values, one constructor per target kind. -/
inductive Val where
  | vstr (s : List Nat)
  | vint (i : Int)
  | vuint (n : Nat)
  | vbool (b : Bool)
  | vfloat (f : GoFloat)
  | vslice (elems : List Val)
  | vstruct (fields : List Val)
deriving Repr

/-- Decode errors, one constructor per error return in decode.go; panicked
marks a Go runtime panic (never an error return).  Message text is not
modelled. -/
inductive Err where
  | outOfFuel
  | unexpectedScalar (got : TokenType)  -- unexpected KIND while decoding into scalar
  | badLiteral                          -- strconv parse error on the token text
  | sliceBegin (got : TokenType)        -- slice value cannot begin with KIND
  | structBegin (got : TokenType)       -- struct value cannot begin with KIND
  | eofInSlice                          -- unexpected EOF while decoding slice value
  | eofInStruct                         -- unexpected EOF decoding struct value
  | eofInSkip                           -- unexpected EOF while skipping tuple
  | noValueToSkip (got : TokenType)     -- no value to skip
  | namedFieldNotLeft (got : TokenType) -- named struct field must start with LEFT
  | labelNotRaw (got : TokenType)       -- struct name must be RAW_STRING
  | missingClose (got : TokenType)      -- missing closing paren for struct tuple
  | insufficientPositional              -- insufficient values for positional fields
  | multiOnNonSlice                     -- multi flag used on non-slice field
  | flatOnBad                           -- flat flag on non-slice, non-struct field
  | docNotLeft (got : TokenType)        -- document must start with LEFT
  | docNameNotRaw (got : TokenType)     -- first element must be RAW_STRING
  | docNameMismatch                     -- want filetype X but got Y
  | panicked
deriving DecidableEq, Repr

/-- The reflect.Int versus reflect.Uint dispatch inside decodeInt. -/
inductive IntKind where
  | kInt
  | kUint
deriving DecidableEq, Repr

/-- decodeString from decode.go: raw atom text verbatim, quoted atom text
through unquoteString, and the token consumed only on success. -/
def decodeString (ts : List Token) : Except Err Val × List Token :=
  let next := peekTok ts
  match next.type with
  | .RAW_STRING => (.ok (.vstr next.data), (readTok ts).2)
  | .QUOTE_STRING =>
    match unquoteString next.data with
    | some s => (.ok (.vstr s), (readTok ts).2)
    | none => (.error .panicked, ts)
  | t => (.error (.unexpectedScalar t), ts)

/-- decodeInt from decode.go: for Int targets a plain base-10 ParseInt; for
Uint targets underscores are first removed everywhere, then a LOWERCASE 0x
prefix selects base 16 (with the prefix removed), otherwise base 10.  The
token is consumed only on success. -/
def decodeInt (kind : IntKind) (ts : List Token) : Except Err Val × List Token :=
  let next := peekTok ts
  match next.type with
  | .RAW_STRING =>
    match kind with
    | .kInt =>
      match goParseInt next.data with
      | some v => (.ok (.vint v), (readTok ts).2)
      | none => (.error .badLiteral, ts)
    | .kUint =>
      let token := next.data.filter (fun b => b ≠ 95)
      let (base, digits) :=
        if [48, 120] <+: token then (16, token.drop 2) else (10, token)
      match goParseUint base digits with
      | some v => (.ok (.vuint v), (readTok ts).2)
      | none => (.error .badLiteral, ts)
  | t => (.error (.unexpectedScalar t), ts)

/-- decodeFloat from decode.go: ParseFloat on a raw atom; the token is
consumed only on success. -/
def decodeFloat (ts : List Token) : Except Err Val × List Token :=
  let next := peekTok ts
  match next.type with
  | .RAW_STRING =>
    match goParseFloat next.data with
    | some v => (.ok (.vfloat v), (readTok ts).2)
    | none => (.error .badLiteral, ts)
  | t => (.error (.unexpectedScalar t), ts)

/-- decodeBool from decode.go: ParseBool on a raw atom; the token is
consumed only on success. -/
def decodeBool (ts : List Token) : Except Err Val × List Token :=
  let next := peekTok ts
  match next.type with
  | .RAW_STRING =>
    match goParseBool next.data with
    | some v => (.ok (.vbool v), (readTok ts).2)
    | none => (.error .badLiteral, ts)
  | t => (.error (.unexpectedScalar t), ts)

/-- The paren-counting loop of decodeSkip: read tokens, tracking nesting,
until the count returns to zero.  List exhaustion is the EOF read. -/
def skipLoop (nest : Int) : List Token → Except Err Unit × List Token
  | [] => (.error .eofInSkip, [])
  | t :: rest =>
    match t.type with
    | .LEFT => skipLoop (nest + 1) rest
    | .RIGHT => if nest - 1 = 0 then (.ok (), rest) else skipLoop (nest - 1) rest
    | .EOF => (.error .eofInSkip, rest)
    | _ => skipLoop nest rest

/-- decodeSkip from decode.go: a balanced-paren skip when the next token
opens a tuple, an error when there is no value to skip, and a single-token
skip otherwise. -/
def decodeSkip (ts : List Token) : Except Err Unit × List Token :=
  let next := peekTok ts
  if next.type = .LEFT then skipLoop 0 ts
  else if next.type = .RIGHT || next.type = .EOF then
    (.error (.noValueToSkip next.type), ts)
  else (.ok (), (readTok ts).2)

/-- The local Field record built by decodeSequenceIntoStruct: the struct
field index plus the flat and multi flags. -/
structure Field where
  index : Nat
  flat : Bool
  multi : Bool
deriving DecidableEq, Repr

/-- Whether a type is a slice (reflect.Slice kind check). -/
def isSliceTy : Ty → Bool
  | .slice _ => true
  | _ => false

/-- Whether a type is a struct (reflect.Struct kind check). -/
def isStructTy : Ty → Bool
  | .struct _ => true
  | _ => false

/-- Element type of a slice type.  The non-slice fallback is unreachable in
the engine: every use is guarded by the multi-flag validation. -/
def sliceElem : Ty → Ty
  | .slice e => e
  | t => t

/-- The field type at a struct index (v.Field(i).Type()).  The out-of-range
fallback is unreachable: plan indices come from the same field list. -/
def tyOfIndex (fs : List FieldSpec) (i : Nat) : Ty :=
  match fs.get? i with
  | some (_, _, _, t) => t
  | none => .str

mutual

/-- Zero value of a type (reflect.New). -/
def zeroVal : Ty → Val
  | .str => .vstr []
  | .int => .vint 0
  | .uint => .vuint 0
  | .bool => .vbool false
  | .float => .vfloat (.finite false 0 0)
  | .slice _ => .vslice []
  | .struct fs => .vstruct (zeroFields fs)

/-- Zero values of a struct field list. -/
def zeroFields : List FieldSpec → List Val
  | [] => []
  | (_, _, _, t) :: rest => zeroVal t :: zeroFields rest

end

/-- Lookup in the named-field plan built by decodeSequenceIntoStruct.  The
Go nameFields map overwrites on duplicate keys, so the LAST declaration of a
key wins; lookup therefore prefers the deepest match. -/
def lookupName : List (List Nat × Field) → List Nat → Option Field
  | [], _ => none
  | (k, f) :: rest, key =>
    match lookupName rest key with
    | some r => some r
    | none => if k = key then some f else none

/-- The plan-building prologue of decodeSequenceIntoStruct: walk the tagged
fields in order, validating that multi fields are slices and flat fields are
(after unwrapping a multi slice) slices or structs, and split them into the
ordered positional plan and the named-field plan. -/
def buildPlanAux : Nat → List FieldSpec → Except Err (List Field × List (List Nat × Field))
  | _, [] => .ok ([], [])
  | i, (key, flat, multi, ty) :: rest =>
    if multi && !isSliceTy ty then .error .multiOnNonSlice
    else
      let chkTy := if multi then sliceElem ty else ty
      if flat && !(isSliceTy chkTy || isStructTy chkTy) then .error .flatOnBad
      else
        match buildPlanAux (i + 1) rest with
        | .error e => .error e
        | .ok (pos, names) =>
          if key = [] then .ok (⟨i, flat, multi⟩ :: pos, names)
          else .ok (pos, (key, ⟨i, flat, multi⟩) :: names)

/-- The field plans of a struct field list. -/
def buildPlan (fs : List FieldSpec) : Except Err (List Field × List (List Nat × Field)) :=
  buildPlanAux 0 fs

/-- reflect.Append of a decoded value onto a multi field accumulator.  The
non-slice fallback is unreachable: multi fields are validated slices whose
zero value is an empty vslice. -/
def appendMulti (acc : Val) (x : Val) : Val :=
  match acc with
  | .vslice l => .vslice (l ++ [x])
  | _ => .vslice [x]

/-- The struct field list element at an index (v.Field(i)); out of range is
unreachable for plan indices. -/
def getField (v : List Val) (i : Nat) : Val :=
  v.getD i (.vstr [])

/-- fieldValue.Set: replace the struct field at an index. -/
def setField (v : List Val) (i : Nat) (x : Val) : List Val :=
  v.set i x

mutual

/-- decodeIntoValue from decode.go, dispatching on the target kind.  The
reflect pointer/indirection plumbing is not modelled; the Map case is not
required by any claim and is omitted from the universe. -/
def decodeIntoValue : Nat → Ty → List Token → Except Err Val × List Token
  | 0, _, ts => (.error .outOfFuel, ts)
  | _ + 1, .str, ts => decodeString ts
  | _ + 1, .int, ts => decodeInt .kInt ts
  | _ + 1, .uint, ts => decodeInt .kUint ts
  | _ + 1, .bool, ts => decodeBool ts
  | _ + 1, .float, ts => decodeFloat ts
  | f + 1, .slice e, ts => decodeSlice f e ts
  | f + 1, .struct fs, ts => decodeStruct f fs ts

/-- decodeSlice from decode.go: require and consume an opening paren, start
from an empty slice, decode elements up to the closing paren, and consume
it. -/
def decodeSlice : Nat → Ty → List Token → Except Err Val × List Token
  | 0, _, ts => (.error .outOfFuel, ts)
  | f + 1, elemTy, ts =>
    let next := peekTok ts
    if next.type ≠ .LEFT then (.error (.sliceBegin next.type), ts)
    else
      let ts1 := (readTok ts).2
      match decodeSequenceIntoSlice f elemTy [] .RIGHT ts1 with
      | (.ok elems, ts2) => (.ok (.vslice elems), (readTok ts2).2)
      | (.error e, ts2) => (.error e, ts2)

/-- decodeSequenceIntoSlice from decode.go: append decoded elements until
the end token type is peeked (left unconsumed for the caller); EOF inside
the sequence is fatal. -/
def decodeSequenceIntoSlice : Nat → Ty → List Val → TokenType → List Token →
    Except Err (List Val) × List Token
  | 0, _, _, _, ts => (.error .outOfFuel, ts)
  | f + 1, elemTy, acc, endType, ts =>
    let next := peekTok ts
    if next.type = endType then (.ok acc, ts)
    else if next.type = .EOF then (.error .eofInSlice, ts)
    else
      match decodeIntoValue f elemTy ts with
      | (.ok v, ts1) => decodeSequenceIntoSlice f elemTy (acc ++ [v]) endType ts1
      | (.error e, ts1) => (.error e, ts1)

/-- decodeStruct from decode.go: require and consume an opening paren,
reset the target to its zero value, decode the field sequence, and consume
the closing paren. -/
def decodeStruct : Nat → List FieldSpec → List Token → Except Err Val × List Token
  | 0, _, ts => (.error .outOfFuel, ts)
  | f + 1, fs, ts =>
    let next := peekTok ts
    if next.type ≠ .LEFT then (.error (.structBegin next.type), ts)
    else
      let ts1 := (readTok ts).2
      match decodeSequenceIntoStruct f fs (zeroFields fs) .RIGHT ts1 with
      | (.ok vals, ts2) => (.ok (.vstruct vals), (readTok ts2).2)
      | (.error e, ts2) => (.error e, ts2)

/-- decodeSequenceIntoStruct from decode.go: build the field plans, then
run the field loop. -/
def decodeSequenceIntoStruct : Nat → List FieldSpec → List Val → TokenType →
    List Token → Except Err (List Val) × List Token
  | 0, _, _, _, ts => (.error .outOfFuel, ts)
  | f + 1, fs, v, endType, ts =>
    match buildPlan fs with
    | .error e => (.error e, ts)
    | .ok (pos, names) => decodeStructLoop f fs pos names endType v ts

/-- The main loop of decodeSequenceIntoStruct.  Each iteration either stops
at the end token (running the trailing positional-plan check), consumes the
next positional plan, or reads a named field tuple; the field body and the
shared close-paren epilogue live in decodeStructField. -/
def decodeStructLoop : Nat → List FieldSpec → List Field →
    List (List Nat × Field) → TokenType → List Val → List Token →
    Except Err (List Val) × List Token
  | 0, _, _, _, _, _, ts => (.error .outOfFuel, ts)
  | f + 1, fs, pos, names, endType, v, ts =>
    let next := peekTok ts
    if next.type = endType then
      -- after the loop: unconsumed positional plans are fatal unless
      -- exactly one remains and it is flat
      match pos with
      | [] => (.ok v, ts)
      | p :: restP =>
        if restP.isEmpty && p.flat then (.ok v, ts)
        else (.error .insufficientPositional, ts)
    else if next.type = .EOF then (.error .eofInStruct, ts)
    else
      match pos with
      | fd :: posRest =>
        decodeStructField f fs posRest names endType v (some fd) false ts
      | [] =>
        if next.type ≠ .LEFT then (.error (.namedFieldNotLeft next.type), ts)
        else
          let ts1 := (readTok ts).2
          let label := peekTok ts1
          if label.type ≠ .RAW_STRING then (.error (.labelNotRaw label.type), ts1)
          else
            let ts2 := (readTok ts1).2
            decodeStructField f fs [] names endType v
              (lookupName names label.data) true ts2

/-- The loop body of decodeSequenceIntoStruct from the field-plan resolution
through the Done label: an unmatched name is skipped wholesale; a matched
plan decodes one value (flat fields decode their sub-sequence in place) and
stores or appends it; then a named tuple requires its closing paren; then
the loop continues. -/
def decodeStructField : Nat → List FieldSpec → List Field →
    List (List Nat × Field) → TokenType → List Val → Option Field → Bool →
    List Token → Except Err (List Val) × List Token
  | 0, _, _, _, _, _, _, _, ts => (.error .outOfFuel, ts)
  | f + 1, fs, pos, names, endType, v, fdOpt, needClose, ts =>
    match fdOpt with
    | none =>
      -- unknown named field: skip the value, then close
      match decodeSkip ts with
      | (.ok _, ts1) =>
        if needClose then
          let (closeTok, ts2) := readTok ts1
          if closeTok.type = .RIGHT then
            decodeStructLoop f fs pos names endType v ts2
          else (.error (.missingClose closeTok.type), ts2)
        else decodeStructLoop f fs pos names endType v ts1
      | (.error e, ts1) => (.error e, ts1)
    | some fd =>
      let fieldTy := tyOfIndex fs fd.index
      let valTy := if fd.multi then sliceElem fieldTy else fieldTy
      let r :=
        if fd.flat then
          -- flat: the sub-fields or elements appear in place, no wrapper
          match valTy with
          | .struct fs2 =>
            match decodeSequenceIntoStruct f fs2 (zeroFields fs2) .RIGHT ts with
            | (.ok vals, ts1) => (.ok (.vstruct vals), ts1)
            | (.error e, ts1) => (.error e, ts1)
          | .slice e =>
            match decodeSequenceIntoSlice f e [] .RIGHT ts with
            | (.ok elems, ts1) => (.ok (.vslice elems), ts1)
            | (.error e, ts1) => (.error e, ts1)
          | _ => (.error .panicked, ts)  -- unreachable: validated above
        else decodeIntoValue f valTy ts
      match r with
      | (.ok val, ts1) =>
        let v1 :=
          if fd.multi then setField v fd.index (appendMulti (getField v fd.index) val)
          else setField v fd.index val
        if needClose then
          let (closeTok, ts2) := readTok ts1
          if closeTok.type = .RIGHT then
            decodeStructLoop f fs pos names endType v1 ts2
          else (.error (.missingClose closeTok.type), ts2)
        else decodeStructLoop f fs pos names endType v1 ts1
      | (.error e, ts1) => (.error e, ts1)

end

/-- Decode from decode.go, the document entry point: the stream must open
with a left paren and a raw atom equal to the expected type name; the
remainder is decoded as a struct field sequence, and the closing paren is
consumed at the end.  The reflection checks on the target pointer are not
modelled. -/
def Decode (fuel : Nat) (typeName : List Nat) (fs : List FieldSpec)
    (ts : List Token) : Except Err (List Val) × List Token :=
  let (opening, ts1) := readTok ts
  if opening.type ≠ .LEFT then (.error (.docNotLeft opening.type), ts1)
  else
    let (typeTok, ts2) := readTok ts1
    if typeTok.type ≠ .RAW_STRING then (.error (.docNameNotRaw typeTok.type), ts2)
    else if typeTok.data ≠ typeName then (.error .docNameMismatch, ts2)
    else
      match decodeSequenceIntoStruct fuel fs (zeroFields fs) .RIGHT ts2 with
      | (.ok vals, ts3) => (.ok vals, (readTok ts3).2)
      | (.error e, ts3) => (.error e, ts3)

/-- DecodeSimple from decode.go: one bare value, no envelope. -/
def DecodeSimple (fuel : Nat) (t : Ty) (ts : List Token) :
    Except Err Val × List Token :=
  decodeIntoValue fuel t ts

/-! ## Complete-value predicate for the skip claim -/

/-- Scan of a token list that must close d levels of parentheses exactly at
its end: the shape of the interior of a balanced tuple. -/
def spanClose (d : Nat) : List Token → Bool
  | [] => false
  | t :: rest =>
    match t.type with
    | .LEFT => spanClose (d + 1) rest
    | .RIGHT => if d = 1 then rest.isEmpty else spanClose (d - 1) rest
    | .EOF => false
    | _ => spanClose d rest

/-- A token list that encodes exactly one complete skippable value: a single
non-paren atom, or a balanced tuple (of any nesting depth). -/
def isCompleteValue : List Token → Bool
  | [] => false
  | t :: rest =>
    match t.type with
    | .LEFT => spanClose 1 rest
    | .RIGHT => false
    | .EOF => false
    | _ => rest.isEmpty

/-! ## Helper lemmas -/

/-- delimiter never changes the paren counter. -/
theorem delimiter_parens (w : Writer) : (delimiter w).parens = w.parens := by
  unfold delimiter
  cases w.nextDelim <;> rfl

/-- newline never changes the paren counter. -/
theorem newline_parens (w : Writer) : (newline w).parens = w.parens := by
  unfold newline
  split <;> rfl

/-- recordWrittenOneValue never changes the paren counter. -/
theorem recordWrittenOneValue_parens (w : Writer) :
    (recordWrittenOneValue w).parens = w.parens := by
  unfold recordWrittenOneValue
  split <;> rfl

/-- A successful BeginTuple increments the paren counter by one. -/
theorem BeginTuple_parens {w w' : Writer} (h : BeginTuple w = .ok w') :
    w'.parens = w.parens + 1 := by
  unfold BeginTuple at h
  split at h
  · cases h
    simp [delimiter_parens, newline_parens]
  · split at h
    · cases h
    · cases h
      simp [delimiter_parens]

/-- A successful WriteRawString leaves the paren counter unchanged. -/
theorem WriteRawString_parens {s : List Nat} {w w' : Writer}
    (h : WriteRawString s w = .ok w') : w'.parens = w.parens := by
  unfold WriteRawString at h
  split at h
  · cases h
  · cases h
    rw [recordWrittenOneValue_parens]
    simp [delimiter_parens]

/-- A successful WriteToken never decreases the paren counter. -/
theorem WriteToken_parens_le {t : Token} {w w' : Writer}
    (h : WriteToken t w = .ok w') : w.parens ≤ w'.parens := by
  unfold WriteToken at h
  split at h
  · rw [BeginTuple_parens h]; omega
  · rw [BeginTuple_parens h]; omega
  · rw [WriteRawString_parens h]

/-- A successful WriteToken on a RIGHT token increments the paren counter. -/
theorem WriteToken_right_parens {d : List Nat} {w w' : Writer}
    (h : WriteToken ⟨.RIGHT, d⟩ w = .ok w') : w'.parens = w.parens + 1 := by
  exact BeginTuple_parens h

/-- A successful replay never decreases the paren counter. -/
theorem replayTokens_parens_le {ts : List Token} {w w' : Writer}
    (h : replayTokens ts w = .ok w') : w.parens ≤ w'.parens := by
  induction ts generalizing w with
  | nil => cases h; omega
  | cons t rest ih =>
    unfold replayTokens at h
    split at h
    · next w1 hw1 => exact le_trans (WriteToken_parens_le hw1) (ih h)
    · cases h

/-- A successful replay of a stream containing a RIGHT token strictly
increases the paren counter. -/
theorem replayTokens_parens_lt {ts : List Token} {w w' : Writer}
    (hin : ∃ t ∈ ts, t.type = .RIGHT) (h : replayTokens ts w = .ok w') :
    w.parens + 1 ≤ w'.parens := by
  induction ts generalizing w with
  | nil => rcases hin with ⟨t, ht, _⟩; cases ht
  | cons t rest ih =>
    unfold replayTokens at h
    split at h
    · next w1 hw1 =>
      rcases hin with ⟨u, hu, hur⟩
      rcases List.mem_cons.mp hu with rfl | hmem
      · have h1 : w1.parens = w.parens + 1 := by
          cases u with
          | mk ty dd => cases hur; exact WriteToken_right_parens hw1
        have := replayTokens_parens_le h
        omega
      · have h1 := WriteToken_parens_le hw1
        have := ih ⟨u, hmem, hur⟩ h
        omega
    · cases h

/-- The skip loop consumes a token run that closes its open levels exactly
at the end of the run, leaving exactly the following tokens. -/
theorem skipLoop_spanClose (r : List Token) : ∀ (d : Nat), 0 < d →
    spanClose d r = true → ∀ rest, skipLoop (d : Int) (r ++ rest) = (.ok (), rest) := by
  induction r with
  | nil => intro d _ hspan; cases hspan
  | cons t r' ih =>
    intro d hd hspan rest
    obtain ⟨ty, dd⟩ := t
    cases ty <;> simp only [spanClose] at hspan <;>
      simp only [List.cons_append, skipLoop]
    case LEFT =>
      have hc : ((d : Int) + 1) = ((d + 1 : Nat) : Int) := by push_cast; ring
      rw [hc]
      exact ih (d + 1) (by omega) hspan rest
    case RIGHT =>
      by_cases h1 : d = 1
      · subst h1
        simp only [if_pos rfl] at hspan
        have : r' = [] := List.isEmpty_iff.mp hspan
        subst this
        norm_num
      · rw [if_neg h1] at hspan
        have hcast : ((d : Int) - 1) = ((d - 1 : Nat) : Int) := by
          push_cast [Nat.cast_sub hd]; ring
        have hne : ¬ ((d : Int) - 1 = 0) := by omega
        rw [if_neg hne, hcast]
        exact ih (d - 1) (by omega) hspan rest
    case EOF => cases hspan
    case RAW_STRING => exact ih d hd hspan rest
    case QUOTE_STRING => exact ih d hd hspan rest
    case NUMBER => exact ih d hd hspan rest
    case INVALID => exact ih d hd hspan rest

/-- decodeSkip consumes exactly one complete value, leaving the scanner at
the first following token. -/
theorem decodeSkip_complete {w : List Token} (hw : isCompleteValue w = true)
    (rest : List Token) : decodeSkip (w ++ rest) = (.ok (), rest) := by
  match w with
  | [] => cases hw
  | t :: r =>
    obtain ⟨ty, dd⟩ := t
    cases ty <;> simp only [isCompleteValue] at hw
    case RIGHT => exact Bool.noConfusion hw
    case EOF => exact Bool.noConfusion hw
    case LEFT =>
      show decodeSkip (⟨.LEFT, dd⟩ :: (r ++ rest)) = _
      unfold decodeSkip
      simp only [peekTok, if_pos rfl]
      unfold skipLoop
      have hc : ((0 : Int) + 1) = ((1 : Nat) : Int) := by norm_num
      simp only [hc]
      exact skipLoop_spanClose r 1 (by omega) hw rest
    case RAW_STRING =>
      have : r = [] := List.isEmpty_iff.mp hw
      subst this
      simp [decodeSkip, peekTok, readTok]
    case QUOTE_STRING =>
      have : r = [] := List.isEmpty_iff.mp hw
      subst this
      simp [decodeSkip, peekTok, readTok]
    case NUMBER =>
      have : r = [] := List.isEmpty_iff.mp hw
      subst this
      simp [decodeSkip, peekTok, readTok]
    case INVALID =>
      have : r = [] := List.isEmpty_iff.mp hw
      subst this
      simp [decodeSkip, peekTok, readTok]

/-! ## Claim theorems -/

/-- Claim C1 (code bug): the write-quoted/unescape round trip does NOT
reproduce every string built from control characters, quotes and
backslashes.  Writing the one-byte string with a double quote (byte 34)
emits the token bytes quote backslash quote quote, which unquoteString
decodes to backslash-quote (two bytes), not the original string; writing the
one-byte string with a backslash (byte 92) emits quote backslash backslash
quote, on which unquoteString panics (modelled as none).  Control characters
alone do round-trip, as the escaped newline example shows. -/
theorem claim_C1 :
    quoteRoundTrip [34] = some [92, 34] ∧ quoteRoundTrip [34] ≠ some [34] ∧
    quoteRoundTrip [92] = none ∧
    quoteRoundTrip [10, 9, 7, 104] = some [10, 9, 7, 104] := by
  refine ⟨by decide, by decide, by decide, by decide⟩

/-- Claim C2 (code bug): unquoteString strips the delimiters and resolves
the escapes for a, b, f, n, r, t and v, but NOT for backslash and quote:
the token quote backslash quote quote decodes to backslash-quote instead of
a single quote, and the token quote backslash backslash quote panics
(modelled as none) instead of yielding a single backslash, because the
escape switch has no case for those two bytes and its default branch
re-processes the escaped byte. -/
theorem claim_C2 :
    unquoteString [34, 92, 97, 34] = some [7] ∧
    unquoteString [34, 92, 98, 34] = some [8] ∧
    unquoteString [34, 92, 102, 34] = some [12] ∧
    unquoteString [34, 92, 110, 34] = some [10] ∧
    unquoteString [34, 92, 114, 34] = some [13] ∧
    unquoteString [34, 92, 116, 34] = some [9] ∧
    unquoteString [34, 92, 118, 34] = some [11] ∧
    unquoteString [34, 92, 34, 34] = some [92, 34] ∧
    unquoteString [34, 92, 34, 34] ≠ some [34] ∧
    unquoteString [34, 92, 92, 34] = none := by
  refine ⟨by decide, by decide, by decide, by decide, by decide, by decide,
    by decide, by decide, by decide, by decide⟩

/-- Claim C3 (code bug): the scanner treats LF, CR, SPACE, NUL and
BACKSPACE (byte 8) as whitespace, not TAB (byte 9).  The bytes a TAB b lex
as the single raw atom a-TAB-b instead of two atoms, while the bytes a
BACKSPACE b lex as two atoms even though backspace is not in the claimed
whitespace set; space, CR, LF and NUL behave as claimed. -/
theorem claim_C3 :
    tokenize [97, 9, 98] = [⟨.RAW_STRING, [97, 9, 98]⟩] ∧
    tokenize [97, 8, 98] = [⟨.RAW_STRING, [97]⟩, ⟨.RAW_STRING, [98]⟩] ∧
    tokenize [97, 32, 98] = [⟨.RAW_STRING, [97]⟩, ⟨.RAW_STRING, [98]⟩] ∧
    tokenize [97, 13, 10, 0, 98] = [⟨.RAW_STRING, [97]⟩, ⟨.RAW_STRING, [98]⟩] ∧
    isScanWhitespace 9 = false ∧ isScanWhitespace 8 = true := by
  refine ⟨by decide, by decide, by decide, by decide, by decide, by decide⟩

/-- Claim C8: the writer sequence BeginTuple, WriteRawString a, BeginTuple,
WriteRawString b, EndTuple, EndTuple, Close succeeds and emits exactly the
bytes of lparen a newline space space lparen b rparen rparen. -/
theorem claim_C8 :
    writerSequenceC8 = .ok [40, 97, 10, 32, 32, 40, 98, 41, 41] := by
  rfl

/-- Claim C9: WriteToken sends a RIGHT token to BeginTuple (emitting an
opening parenthesis and incrementing the depth), never decreases the depth
counter for any token, and therefore a successful replay of any token
stream containing a RIGHT token leaves unclosed tuples: Close on the final
writer fails with the unbalanced error. -/
theorem claim_C9 :
    (∀ (d : List Nat) (w : Writer), WriteToken ⟨.RIGHT, d⟩ w = BeginTuple w) ∧
    (∀ (t : Token) (w w' : Writer), WriteToken t w = .ok w' → w.parens ≤ w'.parens) ∧
    (∀ (ts : List Token) (w' : Writer), (∃ t ∈ ts, t.type = .RIGHT) →
      replayTokens ts NewWriter = .ok w' → Close w' = .error .unbalanced) := by
  refine ⟨fun d w => rfl, fun t w w' h => WriteToken_parens_le h, ?_⟩
  intro ts w' hin hrep
  have h1 := replayTokens_parens_lt hin hrep
  have h0 : NewWriter.parens = 0 := rfl
  unfold Close
  rw [if_pos (by omega)]

/-- Witness for claim C9 at the one-token stream containing only a RIGHT
token: the replay succeeds, producing a writer on which Close reports the
unbalanced error, and WriteToken on that token is BeginTuple. -/
theorem claim_C9_witness :
    WriteToken ⟨.RIGHT, [41]⟩ NewWriter = BeginTuple NewWriter ∧
    Close ⟨1, 1, .delimNone, false, [40]⟩ = .error .unbalanced :=
  ⟨claim_C9.1 [41] NewWriter,
   claim_C9.2.2 [⟨.RIGHT, [41]⟩] ⟨1, 1, .delimNone, false, [40]⟩
     ⟨⟨.RIGHT, [41]⟩, by decide, rfl⟩ rfl⟩

set_option maxHeartbeats 1600000 in
/-- Claim C7: when the struct-decode loop reaches the aggregate
terminating RIGHT paren, any unconsumed positional plans are fatal, except
in exactly one case: a single remaining plan whose shape is flat, in which
case the decode succeeds with the struct value untouched (the field
consumed zero occurrences) and the scanner still at the closing paren. -/
theorem claim_C7 (f : Nat) (fs : List FieldSpec) (pos : List Field)
    (names : List (List Nat × Field)) (v : List Val) (ts : List Token)
    (h : (peekTok ts).type = .RIGHT) :
    decodeStructLoop (f + 1) fs pos names .RIGHT v ts =
      (match pos with
       | [] => (.ok v, ts)
       | p :: restP =>
         if restP.isEmpty && p.flat then (.ok v, ts)
         else (.error .insufficientPositional, ts)) := by
  simp only [decodeStructLoop.eq_def, h, if_pos]

/-- Witness for claim C7: a single remaining flat positional plan at the
closing paren succeeds with the value untouched, and a single remaining
non-flat plan fails. -/
theorem claim_C7_witness :
    decodeStructLoop 1 [([], true, false, Ty.slice Ty.str)] [⟨0, true, false⟩]
        [] .RIGHT [Val.vslice []] [⟨.RIGHT, [41]⟩] =
      (.ok [Val.vslice []], [⟨.RIGHT, [41]⟩]) ∧
    decodeStructLoop 1 [([], false, false, Ty.int)] [⟨0, false, false⟩]
        [] .RIGHT [Val.vint 0] [⟨.RIGHT, [41]⟩] =
      (.error .insufficientPositional, [⟨.RIGHT, [41]⟩]) :=
  ⟨claim_C7 0 [([], true, false, Ty.slice Ty.str)] [⟨0, true, false⟩] []
      [Val.vslice []] [⟨.RIGHT, [41]⟩] (by decide),
   claim_C7 0 [([], false, false, Ty.int)] [⟨0, false, false⟩] []
      [Val.vint 0] [⟨.RIGHT, [41]⟩] (by decide)⟩

/-- Counterexample for claim C4: the uppercase prefix 0X is NOT recognized
as a hex prefix.  Decoding the raw atom 0XFF into an unsigned target fails
with a literal error instead of producing 255, because only the lowercase
prefix 0x selects base 16 and the X byte is not a valid base-10 digit; the
digits FF on their own would be a valid base-16 literal. -/
theorem claim_C4_counterexample :
    (decodeInt .kUint [⟨.RAW_STRING, [48, 88, 70, 70]⟩]).1 = .error .badLiteral ∧
    (decodeInt .kUint [⟨.RAW_STRING, [48, 88, 70, 70]⟩]).1 ≠ .ok (.vuint 255) ∧
    goParseUint 16 [70, 70] = some 255 := by
  refine ⟨rfl, ?_, by decide⟩
  intro h
  rw [show (decodeInt .kUint [⟨.RAW_STRING, [48, 88, 70, 70]⟩]).1 =
      Except.error Err.badLiteral from rfl] at h
  exact Except.noConfusion h

/-- Claim C4 as amended: decoding a raw atom into an unsigned target first
removes every underscore; if the stripped text starts with the LOWERCASE
prefix 0x, the remainder is parsed in base 16, otherwise the whole stripped
text is parsed in base 10 (so 0X is not recognized); underscores anywhere
are insignificant, and 0xfaded_face decodes to the same value as
0xfadedface. -/
theorem claim_C4 (s t : List Nat) (h : t = s.filter (fun b => b ≠ 95)) :
    ((decodeInt .kUint [⟨.RAW_STRING, s⟩]).1 = (decodeInt .kUint [⟨.RAW_STRING, t⟩]).1) ∧
    ([48, 120] <+: t →
      (decodeInt .kUint [⟨.RAW_STRING, s⟩]).1 =
        (match goParseUint 16 (t.drop 2) with
         | some v => Except.ok (Val.vuint v)
         | none => Except.error Err.badLiteral)) ∧
    (¬ [48, 120] <+: t →
      (decodeInt .kUint [⟨.RAW_STRING, s⟩]).1 =
        (match goParseUint 10 t with
         | some v => Except.ok (Val.vuint v)
         | none => Except.error Err.badLiteral)) ∧
    (decodeInt .kUint [⟨.RAW_STRING, [48, 120, 102, 97, 100, 101, 100, 95, 102, 97, 99, 101]⟩]).1 =
      (decodeInt .kUint [⟨.RAW_STRING, [48, 120, 102, 97, 100, 101, 100, 102, 97, 99, 101]⟩]).1 ∧
    (decodeInt .kUint [⟨.RAW_STRING, [48, 120, 102, 97, 100, 101, 100, 95, 102, 97, 99, 101]⟩]).1 =
      .ok (.vuint 67342564046) := by
  subst h
  have hfilter : (s.filter (fun b => b ≠ 95)).filter (fun b => b ≠ 95) =
      s.filter (fun b => b ≠ 95) := by
    rw [List.filter_filter]
    simp
  refine ⟨?_, ?_, ?_, by rfl, by rfl⟩
  · simp only [decodeInt, peekTok, readTok, hfilter]
    split <;> rfl
  · intro hpre
    simp only [decodeInt, peekTok, readTok, if_pos hpre]
    split <;> rfl
  · intro hpre
    simp only [decodeInt, peekTok, readTok, if_neg hpre]
    split <;> rfl

/-- Witness for claim C4 at the text 1_2: underscore removal gives 12, no
hex prefix applies, and the base-10 parse yields twelve. -/
theorem claim_C4_witness :
    (decodeInt .kUint [⟨.RAW_STRING, [49, 95, 50]⟩]).1 =
      (decodeInt .kUint [⟨.RAW_STRING, [49, 50]⟩]).1 ∧
    (decodeInt .kUint [⟨.RAW_STRING, [49, 95, 50]⟩]).1 =
      (match goParseUint 10 [49, 50] with
       | some v => Except.ok (Val.vuint v)
       | none => Except.error Err.badLiteral) :=
  ⟨(claim_C4 [49, 95, 50] [49, 50] (by decide)).1,
   (claim_C4 [49, 95, 50] [49, 50] (by decide)).2.2.1 (by decide)⟩

/-- Claim C10: whenever a scalar decode (string, int, uint, bool, float)
returns an error, whether from a token kind that cannot hold a scalar or
from malformed literal text, the offending token is not consumed: the
scanner state is returned unchanged, so the next Peek yields the same token
as before the failed decode. -/
theorem claim_C10 (ts : List Token) :
    (∀ e, (decodeString ts).1 = .error e →
      (decodeString ts).2 = ts ∧ peekTok (decodeString ts).2 = peekTok ts) ∧
    (∀ e, (decodeInt .kInt ts).1 = .error e →
      (decodeInt .kInt ts).2 = ts ∧ peekTok (decodeInt .kInt ts).2 = peekTok ts) ∧
    (∀ e, (decodeInt .kUint ts).1 = .error e →
      (decodeInt .kUint ts).2 = ts ∧ peekTok (decodeInt .kUint ts).2 = peekTok ts) ∧
    (∀ e, (decodeBool ts).1 = .error e →
      (decodeBool ts).2 = ts ∧ peekTok (decodeBool ts).2 = peekTok ts) ∧
    (∀ e, (decodeFloat ts).1 = .error e →
      (decodeFloat ts).2 = ts ∧ peekTok (decodeFloat ts).2 = peekTok ts) := by
  refine ⟨?_, ?_, ?_, ?_, ?_⟩
  · intro e he
    cases hty : (peekTok ts).type <;> simp only [decodeString, hty] at he ⊢
    case QUOTE_STRING =>
      cases huq : unquoteString (peekTok ts).data <;> simp only [huq] at he ⊢ <;>
        exact ⟨by trivial, by trivial⟩
    all_goals exact ⟨by trivial, by trivial⟩
  · intro e he
    cases hty : (peekTok ts).type <;> simp only [decodeInt, hty] at he ⊢
    case RAW_STRING =>
      cases hpi : goParseInt (peekTok ts).data <;> simp only [hpi] at he ⊢ <;>
        exact ⟨by trivial, by trivial⟩
    all_goals exact ⟨by trivial, by trivial⟩
  · intro e he
    cases hty : (peekTok ts).type <;> simp only [decodeInt, hty] at he ⊢
    case RAW_STRING =>
      by_cases hpre : [48, 120] <+: (peekTok ts).data.filter (fun b => b ≠ 95)
      · simp only [if_pos hpre] at he ⊢
        cases hpu : goParseUint 16 (((peekTok ts).data.filter (fun b => b ≠ 95)).drop 2) <;>
          simp only [hpu] at he ⊢ <;>
          exact ⟨by trivial, by trivial⟩
      · simp only [if_neg hpre] at he ⊢
        cases hpu : goParseUint 10 ((peekTok ts).data.filter (fun b => b ≠ 95)) <;>
          simp only [hpu] at he ⊢ <;>
          exact ⟨by trivial, by trivial⟩
    all_goals exact ⟨by trivial, by trivial⟩
  · intro e he
    cases hty : (peekTok ts).type <;> simp only [decodeBool, hty] at he ⊢
    case RAW_STRING =>
      cases hpb : goParseBool (peekTok ts).data <;> simp only [hpb] at he ⊢ <;>
        exact ⟨by trivial, by trivial⟩
    all_goals exact ⟨by trivial, by trivial⟩
  · intro e he
    cases hty : (peekTok ts).type <;> simp only [decodeFloat, hty] at he ⊢
    case RAW_STRING =>
      cases hpf : goParseFloat (peekTok ts).data <;> simp only [hpf] at he ⊢ <;>
        exact ⟨by trivial, by trivial⟩
    all_goals exact ⟨by trivial, by trivial⟩

/-- Witness for claim C10 at a one-token stream holding an opening paren:
every scalar decoder fails on it and leaves the stream unchanged. -/
theorem claim_C10_witness :
    ((decodeString [⟨.LEFT, [40]⟩]).2 = [⟨.LEFT, [40]⟩] ∧
      peekTok (decodeString [⟨.LEFT, [40]⟩]).2 = peekTok [⟨.LEFT, [40]⟩]) ∧
    ((decodeInt .kInt [⟨.LEFT, [40]⟩]).2 = [⟨.LEFT, [40]⟩] ∧
      peekTok (decodeInt .kInt [⟨.LEFT, [40]⟩]).2 = peekTok [⟨.LEFT, [40]⟩]) ∧
    ((decodeInt .kUint [⟨.LEFT, [40]⟩]).2 = [⟨.LEFT, [40]⟩] ∧
      peekTok (decodeInt .kUint [⟨.LEFT, [40]⟩]).2 = peekTok [⟨.LEFT, [40]⟩]) ∧
    ((decodeBool [⟨.LEFT, [40]⟩]).2 = [⟨.LEFT, [40]⟩] ∧
      peekTok (decodeBool [⟨.LEFT, [40]⟩]).2 = peekTok [⟨.LEFT, [40]⟩]) ∧
    ((decodeFloat [⟨.LEFT, [40]⟩]).2 = [⟨.LEFT, [40]⟩] ∧
      peekTok (decodeFloat [⟨.LEFT, [40]⟩]).2 = peekTok [⟨.LEFT, [40]⟩]) :=
  ⟨(claim_C10 [⟨.LEFT, [40]⟩]).1 (.unexpectedScalar .LEFT) rfl,
   (claim_C10 [⟨.LEFT, [40]⟩]).2.1 (.unexpectedScalar .LEFT) rfl,
   (claim_C10 [⟨.LEFT, [40]⟩]).2.2.1 (.unexpectedScalar .LEFT) rfl,
   (claim_C10 [⟨.LEFT, [40]⟩]).2.2.2.1 (.unexpectedScalar .LEFT) rfl,
   (claim_C10 [⟨.LEFT, [40]⟩]).2.2.2.2 (.unexpectedScalar .LEFT) rfl⟩

/-- Claim C5: when every positional plan is consumed and the next named
field label matches no plan, the engine consumes the label tuple opening
paren and the raw label, skips the entire value that follows (one complete
value: a single atom or a balanced tuple of any nesting depth), requires
and consumes the label tuple closing paren, and then continues decoding the
remaining fields exactly as if the unknown field had not been present (one
loop iteration of fuel and two more for the field body are consumed). -/
theorem claim_C5 (f : Nat) (fs : List FieldSpec) (names : List (List Nat × Field))
    (v : List Val) (lbl : List Nat) (w rest : List Token)
    (hl : lookupName names lbl = none) (hw : isCompleteValue w = true) :
    decodeStructLoop (f + 2) fs [] names .RIGHT v
      (⟨.LEFT, [40]⟩ :: ⟨.RAW_STRING, lbl⟩ :: (w ++ ⟨.RIGHT, [41]⟩ :: rest)) =
    decodeStructLoop f fs [] names .RIGHT v rest := by
  have hskip := decodeSkip_complete hw (⟨.RIGHT, [41]⟩ :: rest)
  show decodeStructLoop ((f + 1) + 1) fs [] names .RIGHT v _ = _
  conv_lhs => rw [decodeStructLoop.eq_def]
  simp [peekTok, readTok, hl, hskip, decodeStructField.eq_def]

/-- Witness for claim C5: a plan named x, an unknown label y whose value is
the nested tuple of a and (b), an empty remainder, and fuel one on each
side. -/
theorem claim_C5_witness :
    lookupName [([120], ⟨0, false, false⟩)] [121] = none ∧
    isCompleteValue [⟨.LEFT, [40]⟩, ⟨.RAW_STRING, [97]⟩, ⟨.LEFT, [40]⟩,
      ⟨.RAW_STRING, [98]⟩, ⟨.RIGHT, [41]⟩, ⟨.RIGHT, [41]⟩] = true ∧
    decodeStructLoop 3 [([120], false, false, Ty.int)] []
        [([120], ⟨0, false, false⟩)] .RIGHT [Val.vint 0]
        (⟨.LEFT, [40]⟩ :: ⟨.RAW_STRING, [121]⟩ ::
          ([⟨.LEFT, [40]⟩, ⟨.RAW_STRING, [97]⟩, ⟨.LEFT, [40]⟩,
            ⟨.RAW_STRING, [98]⟩, ⟨.RIGHT, [41]⟩, ⟨.RIGHT, [41]⟩] ++
            ⟨.RIGHT, [41]⟩ :: [])) =
      decodeStructLoop 1 [([120], false, false, Ty.int)] []
        [([120], ⟨0, false, false⟩)] .RIGHT [Val.vint 0] [] :=
  ⟨by decide, by decide,
   claim_C5 1 [([120], false, false, Ty.int)] [([120], ⟨0, false, false⟩)]
     [Val.vint 0] [121]
     [⟨.LEFT, [40]⟩, ⟨.RAW_STRING, [97]⟩, ⟨.LEFT, [40]⟩,
      ⟨.RAW_STRING, [98]⟩, ⟨.RIGHT, [41]⟩, ⟨.RIGHT, [41]⟩] []
     (by decide) (by decide)⟩

/-- Claim C6: decoding an aggregate whose plan declares one named multi
field accumulates, for an input with k occurrences of that field (k
arbitrary: zero, one or many), an ordered sequence of exactly the k decoded
values in source order, appended after whatever the accumulator already
held, and stops at the terminating paren. -/
theorem claim_C6 (lbl : List Nat) (vs : List (List Nat)) (ns : List Int)
    (h : List.Forall₂ (fun s n => goParseInt s = some n) vs ns) :
    ∀ (f : Nat) (acc : List Val) (rest : List Token),
    decodeStructLoop (2 * vs.length + f + 1) [(lbl, false, true, Ty.slice Ty.int)]
        [] [(lbl, ⟨0, false, true⟩)] .RIGHT [Val.vslice acc]
        ((vs.map fun s => [Token.mk .LEFT [40], ⟨.RAW_STRING, lbl⟩,
          ⟨.RAW_STRING, s⟩, ⟨.RIGHT, [41]⟩]).flatten ++ ⟨.RIGHT, [41]⟩ :: rest) =
      (.ok [Val.vslice (acc ++ ns.map Val.vint)], ⟨.RIGHT, [41]⟩ :: rest) := by
  induction h with
  | nil =>
    intro f acc rest
    simp only [List.map_nil, List.flatten_nil, List.nil_append, List.length_nil,
      Nat.mul_zero, Nat.zero_add, List.map_nil, List.append_nil]
    rw [decodeStructLoop.eq_def]
    rfl
  | @cons s n vs' ns' hsn htl ih =>
    intro f acc rest
    have hfuel : 2 * (s :: vs').length + f + 1 = ((2 * vs'.length + f + 1) + 1) + 1 := by
      simp [List.length_cons]
      ring
    rw [hfuel]
    have hlook : lookupName [(lbl, (⟨0, false, true⟩ : Field))] lbl =
        some ⟨0, false, true⟩ := by
      simp [lookupName]
    conv_lhs => rw [decodeStructLoop.eq_def]
    simp [peekTok, readTok, hlook, decodeStructField.eq_def, decodeIntoValue.eq_def,
      decodeInt, hsn, getField, setField, appendMulti, tyOfIndex, sliceElem]
    have := ih f (acc ++ [Val.vint n]) rest
    simp only [List.append_assoc, List.cons_append, List.map_cons] at this ⊢
    rw [this]
    simp [List.append_assoc]

/-- Witness for claim C6 at two occurrences of the multi field n with
values 1 and 2: the decoded field is the two-element sequence in source
order. -/
theorem claim_C6_witness :
    List.Forall₂ (fun s n => goParseInt s = some n) [[49], [50]] [1, 2] ∧
    decodeStructLoop 5 [([110], false, true, Ty.slice Ty.int)] []
        [([110], ⟨0, false, true⟩)] .RIGHT [Val.vslice []]
        [⟨.LEFT, [40]⟩, ⟨.RAW_STRING, [110]⟩, ⟨.RAW_STRING, [49]⟩, ⟨.RIGHT, [41]⟩,
         ⟨.LEFT, [40]⟩, ⟨.RAW_STRING, [110]⟩, ⟨.RAW_STRING, [50]⟩, ⟨.RIGHT, [41]⟩,
         ⟨.RIGHT, [41]⟩] =
      (.ok [Val.vslice [Val.vint 1, Val.vint 2]], [⟨.RIGHT, [41]⟩]) :=
  ⟨.cons (by decide) (.cons (by decide) .nil),
   claim_C6 [110] [[49], [50]] [1, 2]
     (.cons (by decide) (.cons (by decide) .nil)) 0 [] []⟩

end GoKicad
